import Mathlib

/-!
Verification of the solclash arena harness and starter module.

The development shallowly embeds the Rust sources:
  * `apps/arena-harness/src/abi.rs` — the binary records and the borsh codec,
  * `apps/arena-harness/src/main.rs` — output validation, eval handling,
    window-id normalization and the gateway loop,
  * `starter/program/src/lib.rs` — the module entrypoint and its validator.
Bytes are modelled as `Nat` (with `< 256` well-formedness where it matters),
64-bit signed integers as `Int` with explicit two's-complement conversion.
-/

namespace Solclash

/-! ## Little-endian byte primitives (borsh fixed-width integers) -/

/-- Encode `n` into `w` little-endian bytes (borsh layout for uN / iN). -/
def toLEBytes : Nat → Nat → List Nat
  | 0, _ => []
  | w + 1, n => n % 256 :: toLEBytes w (n / 256)

/-- Read back a little-endian byte list as a natural number. -/
def fromLEBytes : List Nat → Nat
  | [] => 0
  | b :: bs => b + 256 * fromLEBytes bs

theorem toLEBytes_length (w n : Nat) : (toLEBytes w n).length = w := by
  induction w generalizing n with
  | zero => rfl
  | succ w ih => simp [toLEBytes, ih]

theorem fromLEBytes_toLEBytes (w n : Nat) (h : n < 256 ^ w) :
    fromLEBytes (toLEBytes w n) = n := by
  induction w generalizing n with
  | zero =>
    simp [toLEBytes, fromLEBytes]
    omega
  | succ w ih =>
    have hlt : n / 256 < 256 ^ w := by
      rw [Nat.div_lt_iff_lt_mul (by norm_num)]
      calc n < 256 ^ (w + 1) := h
        _ = 256 ^ w * 256 := by ring
    simp [toLEBytes, fromLEBytes, ih _ hlt]
    omega

theorem toLEBytes_lt (w n : Nat) : ∀ b ∈ toLEBytes w n, b < 256 := by
  induction w generalizing n with
  | zero => simp [toLEBytes]
  | succ w ih =>
    intro b hb
    simp only [toLEBytes, List.mem_cons] at hb
    rcases hb with h | h
    · omega
    · exact ih _ b h

/-- Two's-complement encoding of an `i64` value as a natural below `2 ^ 64`. -/
def i64ToNat (x : Int) : Nat := (x % (2 ^ 64 : Int)).toNat

/-- Decode a natural below `2 ^ 64` as a signed 64-bit value. -/
def natToI64 (n : Nat) : Int :=
  if n < 2 ^ 63 then (n : Int) else (n : Int) - 2 ^ 64

/-- Range predicate for `i64` fields. -/
def isI64 (x : Int) : Prop := -(2 ^ 63) ≤ x ∧ x < 2 ^ 63

instance (x : Int) : Decidable (isI64 x) := by unfold isI64; infer_instance

theorem i64ToNat_lt (x : Int) : i64ToNat x < 2 ^ 64 := by
  unfold i64ToNat
  have h1 : (0 : Int) ≤ x % (2 ^ 64 : Int) := Int.emod_nonneg x (by norm_num)
  have h2 : x % (2 ^ 64 : Int) < 2 ^ 64 := Int.emod_lt_of_pos x (by norm_num)
  omega

theorem natToI64_i64ToNat (x : Int) (h : isI64 x) : natToI64 (i64ToNat x) = x := by
  obtain ⟨hl, hr⟩ := h
  unfold natToI64 i64ToNat
  rcases le_or_lt 0 x with hx | hx
  · have hmod : x % (2 ^ 64 : Int) = x := Int.emod_eq_of_lt hx (by omega)
    rw [hmod]
    have : x.toNat < 2 ^ 63 := by omega
    simp only [this, if_true]
    omega
  · have hmod : x % (2 ^ 64 : Int) = x + 2 ^ 64 := by
      have : (x + 2 ^ 64) % (2 ^ 64 : Int) = x % (2 ^ 64 : Int) := by
        omega
      rw [← this, Int.emod_eq_of_lt (by omega) (by omega)]
    rw [hmod]
    have hge : ¬ (x + 2 ^ 64).toNat < 2 ^ 63 := by omega
    simp only [hge, if_false]
    omega

/-! ## Byte-stream readers -/

/-- Take exactly `w` bytes off the front of the stream. -/
def readBytes (w : Nat) (bs : List Nat) : Option (List Nat × List Nat) :=
  if w ≤ bs.length then some (bs.take w, bs.drop w) else none

theorem readBytes_append (w : Nat) (bs rest : List Nat) (h : bs.length = w) :
    readBytes w (bs ++ rest) = some (bs, rest) := by
  unfold readBytes
  rw [if_pos (by simp [h])]
  simp [List.take_append_eq_append_take, List.drop_append_eq_append_drop, h]

/-- Read a `w`-byte little-endian unsigned integer. -/
def readU (w : Nat) (bs : List Nat) : Option (Nat × List Nat) :=
  match readBytes w bs with
  | some (chunk, rest) => some (fromLEBytes chunk, rest)
  | none => none

theorem readU_toLEBytes (w n : Nat) (rest : List Nat) (h : n < 256 ^ w) :
    readU w (toLEBytes w n ++ rest) = some (n, rest) := by
  unfold readU
  rw [readBytes_append w _ rest (toLEBytes_length w n)]
  simp [fromLEBytes_toLEBytes w n h]

/-- Read a little-endian signed 64-bit integer. -/
def readI64 (bs : List Nat) : Option (Int × List Nat) :=
  match readU 8 bs with
  | some (n, rest) => some (natToI64 n, rest)
  | none => none

/-- Serialize a signed 64-bit integer (borsh: 8-byte little-endian
two's complement). -/
def encodeI64 (x : Int) : List Nat := toLEBytes 8 (i64ToNat x)

theorem readI64_encodeI64 (x : Int) (rest : List Nat) (h : isI64 x) :
    readI64 (encodeI64 x ++ rest) = some (x, rest) := by
  unfold readI64 encodeI64
  rw [readU_toLEBytes 8 _ rest (by exact_mod_cast i64ToNat_lt x)]
  simp [natToI64_i64ToNat x h]

/-! ## Records (abi.rs; the starter module's `types.rs` is not in the tree —
per the spec the module boundary is bit-exact, so the same structures serve
both sides) -/

/-- One OHLCV bar (`abi.rs` `Bar`): five `i64` fields. -/
structure Bar where
  open_ : Int
  high : Int
  low : Int
  close : Int
  volume : Int
  deriving Repr, DecidableEq

/-- The versioned input record (`abi.rs` `EvalInputV1`). -/
structure EvalInputV1 where
  version : Nat
  window_id : List Nat
  step_index : Nat
  bar_interval_seconds : Nat
  price_scale : Nat
  volume_scale : Nat
  cash_balance : Int
  position_qty : Int
  avg_entry_price : Int
  max_leverage_bps : Nat
  initial_margin_bps : Nat
  maintenance_margin_bps : Nat
  lookback_len : Nat
  ohlcv : List Bar
  deriving Repr, DecidableEq

/-- The fixed 20-byte output record (`abi.rs` `EvalOutputV1`). -/
structure EvalOutputV1 where
  version : Nat
  action_type : Nat
  order_qty : Int
  err_code : Nat
  reserved : List Nat
  deriving Repr, DecidableEq

/-- Canonical hold record (`abi.rs` `EvalOutputV1::hold`): version 1,
action 0, quantity 0, zero reserved bytes, the given error code. -/
def EvalOutputV1.hold (err_code : Nat) : EvalOutputV1 :=
  { version := 1
    action_type := 0
    order_qty := 0
    err_code := err_code
    reserved := List.replicate 8 0 }

/-- Fixed serialized output length (`abi.rs` `OUTPUT_LEN`). -/
def OUTPUT_LEN : Nat := 20

/-! ## Output validators (host: `main.rs` `validate_output`;
module: `lib.rs` `validate_output`) -/

/-- Host-side output validation (`main.rs` lines 234-242). -/
def validate_output (output : EvalOutputV1) : EvalOutputV1 :=
  if output.version ≠ 1 then EvalOutputV1.hold 6
  else if (output.action_type = 1 ∨ output.action_type = 2) ∧ output.order_qty ≤ 0 then
    EvalOutputV1.hold 6
  else output

/-- Module-side output validation (`lib.rs` lines 63-72): same checks, but
a passing record has its reserved bytes zeroed. -/
def module_validate_output (output : EvalOutputV1) : EvalOutputV1 :=
  if output.version ≠ 1 then EvalOutputV1.hold 6
  else if (output.action_type = 1 ∨ output.action_type = 2) ∧ output.order_qty ≤ 0 then
    EvalOutputV1.hold 6
  else { output with reserved := List.replicate 8 0 }

/-! ## Borsh codec for the records -/

/-- Borsh serialization of the output record: `u8, u8, i64, u16, [u8; 8]`
in declaration order. -/
def encodeOutput (o : EvalOutputV1) : List Nat :=
  toLEBytes 1 o.version ++ toLEBytes 1 o.action_type ++ encodeI64 o.order_qty ++
    toLEBytes 2 o.err_code ++ o.reserved

/-- Borsh deserialization of the output record from a byte stream. -/
def readOutput (bs : List Nat) : Option (EvalOutputV1 × List Nat) :=
  match readU 1 bs with
  | none => none
  | some (version, bs) =>
  match readU 1 bs with
  | none => none
  | some (action_type, bs) =>
  match readI64 bs with
  | none => none
  | some (order_qty, bs) =>
  match readU 2 bs with
  | none => none
  | some (err_code, bs) =>
  match readBytes 8 bs with
  | none => none
  | some (reserved, bs) =>
    some (⟨version, action_type, order_qty, err_code, reserved⟩, bs)

/-- Borsh `try_from_slice` for the output record: deserialize and require
that the whole buffer was consumed. -/
def outputFromSlice (bs : List Nat) : Option EvalOutputV1 :=
  match readOutput bs with
  | some (o, []) => some o
  | _ => none

/-- Well-formedness of an output record: every field fits its declared
fixed-width machine type. -/
def EvalOutputV1.WF (o : EvalOutputV1) : Prop :=
  o.version < 256 ∧ o.action_type < 256 ∧ isI64 o.order_qty ∧
    o.err_code < 2 ^ 16 ∧ o.reserved.length = 8 ∧ ∀ b ∈ o.reserved, b < 256

instance (o : EvalOutputV1) : Decidable o.WF := by unfold EvalOutputV1.WF; infer_instance

theorem readOutput_encodeOutput (o : EvalOutputV1) (rest : List Nat) (h : o.WF) :
    readOutput (encodeOutput o ++ rest) = some (o, rest) := by
  obtain ⟨h1, h2, h3, h4, h5, _⟩ := h
  unfold encodeOutput readOutput
  rw [List.append_assoc, List.append_assoc, List.append_assoc, List.append_assoc]
  rw [readU_toLEBytes 1 _ _ (by simpa using h1)]
  dsimp only
  rw [readU_toLEBytes 1 _ _ (by simpa using h2)]
  dsimp only
  rw [readI64_encodeI64 _ _ h3]
  dsimp only
  rw [readU_toLEBytes 2 _ _ (by simpa using h4)]
  dsimp only
  rw [readBytes_append 8 _ _ h5]

theorem outputFromSlice_encodeOutput (o : EvalOutputV1) (h : o.WF) :
    outputFromSlice (encodeOutput o) = some o := by
  unfold outputFromSlice
  have := readOutput_encodeOutput o [] h
  rw [List.append_nil] at this
  rw [this]

/-- Borsh serialization of one bar: its five `i64` fields in order. -/
def encodeBar (b : Bar) : List Nat :=
  encodeI64 b.open_ ++ encodeI64 b.high ++ encodeI64 b.low ++
    encodeI64 b.close ++ encodeI64 b.volume

/-- Borsh deserialization of one bar. -/
def readBar (bs : List Nat) : Option (Bar × List Nat) :=
  match readI64 bs with
  | none => none
  | some (o, bs) =>
  match readI64 bs with
  | none => none
  | some (h, bs) =>
  match readI64 bs with
  | none => none
  | some (l, bs) =>
  match readI64 bs with
  | none => none
  | some (c, bs) =>
  match readI64 bs with
  | none => none
  | some (v, bs) => some (⟨o, h, l, c, v⟩, bs)

/-- Well-formedness of a bar: each field is a genuine `i64`. -/
def Bar.WF (b : Bar) : Prop :=
  isI64 b.open_ ∧ isI64 b.high ∧ isI64 b.low ∧ isI64 b.close ∧ isI64 b.volume

instance (b : Bar) : Decidable b.WF := by unfold Bar.WF; infer_instance

theorem readBar_encodeBar (b : Bar) (rest : List Nat) (h : b.WF) :
    readBar (encodeBar b ++ rest) = some (b, rest) := by
  obtain ⟨h1, h2, h3, h4, h5⟩ := h
  unfold encodeBar readBar
  rw [List.append_assoc, List.append_assoc, List.append_assoc, List.append_assoc]
  rw [readI64_encodeI64 _ _ h1]
  dsimp only
  rw [readI64_encodeI64 _ _ h2]
  dsimp only
  rw [readI64_encodeI64 _ _ h3]
  dsimp only
  rw [readI64_encodeI64 _ _ h4]
  dsimp only
  rw [readI64_encodeI64 _ _ h5]

/-- Borsh serialization of a `Vec<Bar>`: `u32` little-endian length prefix,
then the elements in order. -/
def encodeBars (bars : List Bar) : List Nat :=
  toLEBytes 4 bars.length ++ (bars.map encodeBar).flatten

/-- Read exactly `count` bars off the stream. -/
def readBarsCount : Nat → List Nat → Option (List Bar × List Nat)
  | 0, bs => some ([], bs)
  | count + 1, bs =>
    match readBar bs with
    | none => none
    | some (b, bs) =>
      match readBarsCount count bs with
      | none => none
      | some (bars, bs) => some (b :: bars, bs)

/-- Borsh deserialization of a `Vec<Bar>`. -/
def readBars (bs : List Nat) : Option (List Bar × List Nat) :=
  match readU 4 bs with
  | none => none
  | some (count, bs) => readBarsCount count bs

theorem readBarsCount_encode (bars : List Bar) (rest : List Nat)
    (h : ∀ b ∈ bars, b.WF) :
    readBarsCount bars.length ((bars.map encodeBar).flatten ++ rest) =
      some (bars, rest) := by
  induction bars with
  | nil => simp [readBarsCount]
  | cons b bars ih =>
    simp only [List.map_cons, List.flatten_cons, List.length_cons, List.append_assoc]
    unfold readBarsCount
    rw [readBar_encodeBar b _ (h b (by simp))]
    dsimp only
    rw [ih (fun x hx => h x (by simp [hx]))]

theorem readBars_encodeBars (bars : List Bar) (rest : List Nat)
    (hlen : bars.length < 2 ^ 32) (h : ∀ b ∈ bars, b.WF) :
    readBars (encodeBars bars ++ rest) = some (bars, rest) := by
  unfold encodeBars readBars
  rw [List.append_assoc]
  rw [readU_toLEBytes 4 _ _ (by simpa using hlen)]
  dsimp only
  exact readBarsCount_encode bars rest h

/-- Borsh serialization of the input record: all fields in declaration
order; `u8`, `[u8; 32]` raw, six `u32`, three `i64` interleaved per the
struct, `u16`, then the bar vector. -/
def encodeInput (i : EvalInputV1) : List Nat :=
  toLEBytes 1 i.version ++ i.window_id ++ toLEBytes 4 i.step_index ++
    toLEBytes 4 i.bar_interval_seconds ++ toLEBytes 4 i.price_scale ++
    toLEBytes 4 i.volume_scale ++ encodeI64 i.cash_balance ++
    encodeI64 i.position_qty ++ encodeI64 i.avg_entry_price ++
    toLEBytes 4 i.max_leverage_bps ++ toLEBytes 4 i.initial_margin_bps ++
    toLEBytes 4 i.maintenance_margin_bps ++ toLEBytes 2 i.lookback_len ++
    encodeBars i.ohlcv

/-- Borsh deserialization of the input record. -/
def readInput (bs : List Nat) : Option (EvalInputV1 × List Nat) :=
  match readU 1 bs with
  | none => none
  | some (version, bs) =>
  match readBytes 32 bs with
  | none => none
  | some (window_id, bs) =>
  match readU 4 bs with
  | none => none
  | some (step_index, bs) =>
  match readU 4 bs with
  | none => none
  | some (bar_interval_seconds, bs) =>
  match readU 4 bs with
  | none => none
  | some (price_scale, bs) =>
  match readU 4 bs with
  | none => none
  | some (volume_scale, bs) =>
  match readI64 bs with
  | none => none
  | some (cash_balance, bs) =>
  match readI64 bs with
  | none => none
  | some (position_qty, bs) =>
  match readI64 bs with
  | none => none
  | some (avg_entry_price, bs) =>
  match readU 4 bs with
  | none => none
  | some (max_leverage_bps, bs) =>
  match readU 4 bs with
  | none => none
  | some (initial_margin_bps, bs) =>
  match readU 4 bs with
  | none => none
  | some (maintenance_margin_bps, bs) =>
  match readU 2 bs with
  | none => none
  | some (lookback_len, bs) =>
  match readBars bs with
  | none => none
  | some (ohlcv, bs) =>
    some (⟨version, window_id, step_index, bar_interval_seconds, price_scale,
      volume_scale, cash_balance, position_qty, avg_entry_price,
      max_leverage_bps, initial_margin_bps, maintenance_margin_bps,
      lookback_len, ohlcv⟩, bs)

/-- Borsh `try_from_slice` for the input record. -/
def inputFromSlice (bs : List Nat) : Option EvalInputV1 :=
  match readInput bs with
  | some (i, []) => some i
  | _ => none

/-- Well-formedness of an input record: every field fits its declared
machine type and the window key is 32 bytes. -/
def EvalInputV1.WF (i : EvalInputV1) : Prop :=
  i.version < 256 ∧ i.window_id.length = 32 ∧ (∀ b ∈ i.window_id, b < 256) ∧
    i.step_index < 2 ^ 32 ∧ i.bar_interval_seconds < 2 ^ 32 ∧
    i.price_scale < 2 ^ 32 ∧ i.volume_scale < 2 ^ 32 ∧
    isI64 i.cash_balance ∧ isI64 i.position_qty ∧ isI64 i.avg_entry_price ∧
    i.max_leverage_bps < 2 ^ 32 ∧ i.initial_margin_bps < 2 ^ 32 ∧
    i.maintenance_margin_bps < 2 ^ 32 ∧ i.lookback_len < 2 ^ 16 ∧
    i.ohlcv.length < 2 ^ 32 ∧ ∀ b ∈ i.ohlcv, b.WF

instance (i : EvalInputV1) : Decidable i.WF := by unfold EvalInputV1.WF; infer_instance

theorem readInput_encodeInput (i : EvalInputV1) (rest : List Nat) (h : i.WF) :
    readInput (encodeInput i ++ rest) = some (i, rest) := by
  obtain ⟨h1, h2, _, h4, h5, h6, h7, h8, h9, h10, h11, h12, h13, h14, h15, h16⟩ := h
  unfold encodeInput readInput
  simp only [List.append_assoc]
  rw [readU_toLEBytes 1 _ _ (by simpa using h1)]
  dsimp only
  rw [readBytes_append 32 _ _ h2]
  dsimp only
  rw [readU_toLEBytes 4 _ _ (by simpa using h4)]
  dsimp only
  rw [readU_toLEBytes 4 _ _ (by simpa using h5)]
  dsimp only
  rw [readU_toLEBytes 4 _ _ (by simpa using h6)]
  dsimp only
  rw [readU_toLEBytes 4 _ _ (by simpa using h7)]
  dsimp only
  rw [readI64_encodeI64 _ _ h8]
  dsimp only
  rw [readI64_encodeI64 _ _ h9]
  dsimp only
  rw [readI64_encodeI64 _ _ h10]
  dsimp only
  rw [readU_toLEBytes 4 _ _ (by simpa using h11)]
  dsimp only
  rw [readU_toLEBytes 4 _ _ (by simpa using h12)]
  dsimp only
  rw [readU_toLEBytes 4 _ _ (by simpa using h13)]
  dsimp only
  rw [readU_toLEBytes 2 _ _ (by simpa using h14)]
  dsimp only
  rw [readBars_encodeBars _ _ h15 h16]

theorem inputFromSlice_encodeInput (i : EvalInputV1) (h : i.WF) :
    inputFromSlice (encodeInput i) = some i := by
  unfold inputFromSlice
  have := readInput_encodeInput i [] h
  rw [List.append_nil] at this
  rw [this]

/-! ## SHA-256 (model of the `sha2` crate used by `parse_window_id`,
following FIPS 180-4; bytes and 32-bit words are `Nat` with explicit
reduction modulo `2 ^ 32`) -/

/-- Reduce to a 32-bit word. -/
def w32 (n : Nat) : Nat := n % 2 ^ 32

/-- Right rotation of a 32-bit word by `n` positions. -/
def rotr32 (n x : Nat) : Nat := w32 (x / 2 ^ n + x % 2 ^ n * 2 ^ (32 - n))

/-- Bitwise complement of a 32-bit word. -/
def not32 (x : Nat) : Nat := 2 ^ 32 - 1 - x % 2 ^ 32

/-- SHA-256 choice function. -/
def shaCh (x y z : Nat) : Nat := Nat.xor (Nat.land x y) (Nat.land (not32 x) z)

/-- SHA-256 majority function. -/
def shaMaj (x y z : Nat) : Nat :=
  Nat.xor (Nat.xor (Nat.land x y) (Nat.land x z)) (Nat.land y z)

/-- SHA-256 big sigma 0. -/
def bigSigma0 (x : Nat) : Nat := Nat.xor (Nat.xor (rotr32 2 x) (rotr32 13 x)) (rotr32 22 x)

/-- SHA-256 big sigma 1. -/
def bigSigma1 (x : Nat) : Nat := Nat.xor (Nat.xor (rotr32 6 x) (rotr32 11 x)) (rotr32 25 x)

/-- SHA-256 small sigma 0. -/
def smallSigma0 (x : Nat) : Nat := Nat.xor (Nat.xor (rotr32 7 x) (rotr32 18 x)) (x / 2 ^ 3)

/-- SHA-256 small sigma 1. -/
def smallSigma1 (x : Nat) : Nat := Nat.xor (Nat.xor (rotr32 17 x) (rotr32 19 x)) (x / 2 ^ 10)

/-- SHA-256 round constants (decimal, FIPS 180-4 section 4.2.2). -/
def sha256K : List Nat :=
  [1116352408, 1899447441, 3049323471, 3921009573, 961987163, 1508970993,
   2453635748, 2870763221, 3624381080, 310598401, 607225278, 1426881987,
   1925078388, 2162078206, 2614888103, 3248222580, 3835390401, 4022224774,
   264347078, 604807628, 770255983, 1249150122, 1555081692, 1996064986,
   2554220882, 2821834349, 2952996808, 3210313671, 3336571891, 3584528711,
   113926993, 338241895, 666307205, 773529912, 1294757372, 1396182291,
   1695183700, 1986661051, 2177026350, 2456956037, 2730485921, 2820302411,
   3259730800, 3345764771, 3516065817, 3600352804, 4094571909, 275423344,
   430227734, 506948616, 659060556, 883997877, 958139571, 1322822218,
   1537002063, 1747873779, 1955562222, 2024104815, 2227730452, 2361852424,
   2428436474, 2756734187, 3204031479, 3329325298]

/-- SHA-256 working state: eight 32-bit words. -/
structure Sha256State where
  a : Nat
  b : Nat
  c : Nat
  d : Nat
  e : Nat
  f : Nat
  g : Nat
  h : Nat
  deriving Repr, DecidableEq

/-- SHA-256 initial hash value (decimal, FIPS 180-4 section 5.3.3). -/
def sha256Init : Sha256State :=
  ⟨1779033703, 3144134277, 1013904242, 2773480762,
   1359893119, 2600822924, 528734635, 1541459225⟩

/-- One SHA-256 compression round for a given schedule word and constant. -/
def sha256Round (st : Sha256State) (wk : Nat × Nat) : Sha256State :=
  let t1 := w32 (st.h + bigSigma1 st.e + shaCh st.e st.f st.g + wk.2 + wk.1)
  let t2 := w32 (bigSigma0 st.a + shaMaj st.a st.b st.c)
  ⟨w32 (t1 + t2), st.a, st.b, st.c, w32 (st.d + t1), st.e, st.f, st.g⟩

/-- Extend the message schedule by one word. -/
def extendOnce (w : List Nat) : List Nat :=
  let L := w.length
  w ++ [w32 (smallSigma1 (w.getD (L - 2) 0) + w.getD (L - 7) 0 +
    smallSigma0 (w.getD (L - 15) 0) + w.getD (L - 16) 0)]

/-- Extend the message schedule `n` times. -/
def extendN : Nat → List Nat → List Nat
  | 0, w => w
  | n + 1, w => extendN n (extendOnce w)

/-- Process one 512-bit block (given as 16 words) into the running hash. -/
def sha256Block (st : Sha256State) (block : List Nat) : Sha256State :=
  let w := extendN 48 block
  let r := (w.zip sha256K).foldl sha256Round st
  ⟨w32 (st.a + r.a), w32 (st.b + r.b), w32 (st.c + r.c), w32 (st.d + r.d),
   w32 (st.e + r.e), w32 (st.f + r.f), w32 (st.g + r.g), w32 (st.h + r.h)⟩

/-- Big-endian byte serialization of a `w`-byte value. -/
def toBEBytes (w n : Nat) : List Nat := (toLEBytes w n).reverse

/-- Group a byte list into big-endian 32-bit words. -/
def bytesToWords : List Nat → List Nat
  | b0 :: b1 :: b2 :: b3 :: rest =>
    (((b0 * 256 + b1) * 256 + b2) * 256 + b3) :: bytesToWords rest
  | _ => []

/-- SHA-256 padding: append `0x80`, zeros to 56 mod 64, then the 64-bit
big-endian bit length. -/
def sha256Pad (msg : List Nat) : List Nat :=
  let l := msg.length
  let k := (119 - l % 64) % 64
  msg ++ 0x80 :: List.replicate k 0 ++ toBEBytes 8 (8 * l)

/-- Split a word list into 16-word blocks, given the number of blocks. -/
def wordsToBlocks : Nat → List Nat → List (List Nat)
  | 0, _ => []
  | n + 1, ws => ws.take 16 :: wordsToBlocks n (ws.drop 16)

/-- SHA-256 digest of a byte string, as 32 bytes. -/
def sha256 (msg : List Nat) : List Nat :=
  let padded := sha256Pad msg
  let blocks := wordsToBlocks (padded.length / 64) (bytesToWords padded)
  let st := blocks.foldl sha256Block sha256Init
  toBEBytes 4 st.a ++ toBEBytes 4 st.b ++ toBEBytes 4 st.c ++ toBEBytes 4 st.d ++
    toBEBytes 4 st.e ++ toBEBytes 4 st.f ++ toBEBytes 4 st.g ++ toBEBytes 4 st.h

theorem toBEBytes_length (w n : Nat) : (toBEBytes w n).length = w := by
  simp [toBEBytes, toLEBytes_length]

theorem sha256_length (msg : List Nat) : (sha256 msg).length = 32 := by
  simp [sha256, toBEBytes_length]

/-! ## Window identifier normalization (`main.rs` `parse_window_id`).
Strings are modelled as their UTF-8 byte lists; `len() == 64` is the byte
length and the all-ASCII-hex-digit character test coincides with the
byte-level test, since hex digits are single-byte characters. -/

/-- Byte-level `char::is_ascii_hexdigit`. -/
def isHexDigitByte (b : Nat) : Bool :=
  (48 ≤ b && b ≤ 57) || (65 ≤ b && b ≤ 70) || (97 ≤ b && b ≤ 102)

/-- Numeric value of one ASCII hexadecimal digit. -/
def hexVal (b : Nat) : Nat :=
  if b ≤ 57 then b - 48 else if b ≤ 70 then b - 55 else b - 87

/-- Model of `hex::decode`: decode pairs of hex digits, failing on a
non-digit or an odd length. -/
def hexDecode : List Nat → Option (List Nat)
  | [] => some []
  | [_] => none
  | hi :: lo :: rest =>
    if isHexDigitByte hi && isHexDigitByte lo then
      match hexDecode rest with
      | none => none
      | some tail => some ((hexVal hi * 16 + hexVal lo) :: tail)
    else none

/-- Window identifier normalization (`main.rs` lines 275-289): a 64-byte
all-hex-digit string is hex-decoded directly, anything else is hashed with
SHA-256. -/
def parse_window_id (value : List Nat) : Option (List Nat) :=
  if value.length = 64 ∧ ∀ b ∈ value, isHexDigitByte b then
    hexDecode value
  else
    some (sha256 value)

theorem hexDecode_total (n : Nat) :
    ∀ v : List Nat, v.length = 2 * n → (∀ b ∈ v, isHexDigitByte b) →
      ∃ k, hexDecode v = some k ∧ k.length = n := by
  induction n with
  | zero =>
    intro v hlen _
    have : v = [] := by
      cases v with
      | nil => rfl
      | cons a t => simp at hlen
    subst this
    exact ⟨[], rfl, rfl⟩
  | succ n ih =>
    intro v hlen hhex
    match v with
    | [] => simp at hlen
    | [a] => simp at hlen; omega
    | hi :: lo :: rest =>
      have hrest : rest.length = 2 * n := by simp at hlen; omega
      obtain ⟨k, hk, hklen⟩ := ih rest hrest (fun b hb => hhex b (by simp [hb]))
      refine ⟨(hexVal hi * 16 + hexVal lo) :: k, ?_, by simp [hklen]⟩
      unfold hexDecode
      rw [if_pos (by simp [hhex hi (by simp), hhex lo (by simp)])]
      rw [hk]

/-! ## Starter module entrypoint (`starter/program/src/lib.rs`).
Accounts are modelled by their data byte lists; the Solana `ProgramResult`
by an explicit ok/err sum. The module's `types.rs` is not in the tree; per
the spec's bit-exact module boundary its records and `hold` constructor
coincide with the harness's `abi.rs` definitions modelled above. -/

/-- Result of the module entrypoint (`solana_program` `ProgramResult`). -/
inductive ProgResult
  | ok
  | err (code : Nat)
  deriving Repr, DecidableEq

/-- The starter policy (`starter/program/src/policy.rs`): always hold. -/
def policy_evaluate (_input : EvalInputV1) : Except Unit EvalOutputV1 :=
  .ok (EvalOutputV1.hold 0)

/-- Model of `lib.rs` `write_output`: serialize the record and overwrite
the prefix of the output account's data, or leave the data untouched when
the region is smaller than the serialized record. (The serialization-error
fallback of the source is unreachable here because borsh serialization of
this fixed-size struct is total.) -/
def write_output (data : List Nat) (output : EvalOutputV1) : List Nat :=
  let serialized := encodeOutput output
  if data.length < serialized.length then data
  else serialized ++ data.drop serialized.length

/-- The record the module hands to `write_output`, following the check
order of `process_instruction` (`lib.rs` lines 36-59): non-empty payload,
input decoding, input version, lookback length, then the policy, whose
result is passed through the module-side validator. -/
def module_record (input_data instruction_data : List Nat)
    (policy : EvalInputV1 → Except Unit EvalOutputV1) : EvalOutputV1 :=
  if instruction_data ≠ [] then EvalOutputV1.hold 1
  else
    match inputFromSlice input_data with
    | none => EvalOutputV1.hold 4
    | some input =>
      if input.version ≠ 1 then EvalOutputV1.hold 2
      else if input.lookback_len ≠ input.ohlcv.length then EvalOutputV1.hold 3
      else
        match policy input with
        | .ok v => module_validate_output v
        | .error _ => module_validate_output (EvalOutputV1.hold 5)

/-- The module entrypoint (`lib.rs` `process_instruction`), parameterized
by the policy function (the starter policy is `policy_evaluate`; the
template marks it replaceable). Returns the program result together with
the updated account data. -/
def process_instruction (accounts : List (List Nat)) (instruction_data : List Nat)
    (policy : EvalInputV1 → Except Unit EvalOutputV1) :
    ProgResult × List (List Nat) :=
  match accounts with
  | [] => (.ok, accounts)
  | [_] => (.ok, accounts)
  | input_data :: output_data :: rest =>
    let out := module_record input_data instruction_data policy
    (.ok, input_data :: write_output output_data out :: rest)

/-! ## Harness eval pipeline (`main.rs`). Pubkeys are opaque tokens; the
sandbox transaction and the fetched output account are oracle inputs. -/

/-- Registered program info (`main.rs` `ProgramInfo`). -/
structure ProgramInfo where
  id : Nat
  deriving Repr, DecidableEq

/-- JSON-side bar (`protocol.rs` `BarJson`). -/
structure BarJson where
  open_ : Int
  high : Int
  low : Int
  close : Int
  volume : Int
  deriving Repr, DecidableEq

/-- JSON-side input record (`protocol.rs` `EvalInputJson`); the window id
string is modelled by its UTF-8 bytes. -/
structure EvalInputJson where
  version : Nat
  window_id : List Nat
  step_index : Nat
  bar_interval_seconds : Nat
  price_scale : Nat
  volume_scale : Nat
  cash_balance : Int
  position_qty : Int
  avg_entry_price : Int
  max_leverage_bps : Nat
  initial_margin_bps : Nat
  maintenance_margin_bps : Nat
  lookback_len : Nat
  ohlcv : List BarJson
  deriving Repr, DecidableEq

/-- Conversion of the JSON input into the binary record
(`main.rs` `convert_input`): normalize the window id, copy every other
field unchanged — no version, lookback or bar-count check happens here. -/
def convert_input (input : EvalInputJson) : Option EvalInputV1 :=
  match parse_window_id input.window_id with
  | none => none
  | some window_id =>
    some
      { version := input.version
        window_id := window_id
        step_index := input.step_index
        bar_interval_seconds := input.bar_interval_seconds
        price_scale := input.price_scale
        volume_scale := input.volume_scale
        cash_balance := input.cash_balance
        position_qty := input.position_qty
        avg_entry_price := input.avg_entry_price
        max_leverage_bps := input.max_leverage_bps
        initial_margin_bps := input.initial_margin_bps
        maintenance_margin_bps := input.maintenance_margin_bps
        lookback_len := input.lookback_len
        ohlcv := input.ohlcv.map (fun b => ⟨b.open_, b.high, b.low, b.close, b.volume⟩) }

/-- The instruction payload the harness sends on every invocation
(`main.rs` line 206: `data: vec![]`). -/
def harness_instruction_data : List Nat := []

/-- The eval pipeline (`main.rs` `handle_eval`), with the sandbox modelled
by two oracle inputs: the transaction outcome and the fetched output
account data. -/
def handle_eval (programs : List (String × ProgramInfo)) (agent_id : String)
    (input_json : EvalInputJson) (txResult : Except String Unit)
    (outputAccountData : Option (List Nat)) : Except String EvalOutputV1 :=
  match programs.lookup agent_id with
  | none => .error ("program not found: " ++ agent_id)
  | some _program =>
    match convert_input input_json with
    | none => .error "window id decode failed"
    | some _input =>
      match txResult with
      | .error e => .error e
      | .ok _ =>
        match outputAccountData with
        | none => .error "eval failed: missing output account"
        | some data =>
          if data.length < OUTPUT_LEN then .ok (EvalOutputV1.hold 7)
          else
            match outputFromSlice data with
            | none => .error "output deserialization failed"
            | some output => .ok (validate_output output)

/-! ## Protocol gateway (`main.rs` `main` loop body). -/

/-- Session state held by the gateway (`main.rs` `HarnessState`); the
sandbox context is an opaque token. -/
structure HarnessState where
  context : Nat
  programs : List (String × ProgramInfo)
  compute_unit_limit : Nat

/-- Response envelope (`protocol.rs` `Response`). -/
inductive Response
  | ok (request_id : Nat)
  | result (request_id : Nat) (agent_id : String) (status : String)
      (version : Nat) (action_type : Nat) (order_qty : Int) (err_code : Nat)
  | error (request_id : Nat) (message : String)
  deriving Repr, DecidableEq

/-- Request envelope (`protocol.rs` `Request`); the init module list and
its artifact paths only feed the init oracle and are elided. -/
inductive Request
  | init (request_id : Nat) (compute_unit_limit : Option Nat)
  | eval (request_id : Nat) (agent_id : String) (input : EvalInputJson)
  | shutdown (request_id : Nat)

/-- One pass of the gateway loop body (`main.rs` lines 58-128):
given the current optional session, a request, and the oracle outcomes of
`init_programs` and of the sandbox interaction, produce the new session,
the response, and whether the loop keeps reading. -/
def gateway_step (state : Option HarnessState) (req : Request)
    (initOutcome : Except String (Nat × List (String × ProgramInfo)))
    (txResult : Except String Unit) (outputAccountData : Option (List Nat)) :
    Option HarnessState × Response × Bool :=
  match req with
  | .init request_id compute_unit_limit =>
    let compute_limit := compute_unit_limit.getD 200000
    match initOutcome with
    | .ok (context, programs) =>
      (some ⟨context, programs, compute_limit⟩, .ok request_id, true)
    | .error e => (state, .error request_id e, true)
  | .eval request_id agent_id input =>
    match state with
    | none => (none, .error request_id "not initialized", true)
    | some st =>
      match handle_eval st.programs agent_id input txResult outputAccountData with
      | .ok output =>
        (some st,
          .result request_id agent_id "OK"
            output.version output.action_type output.order_qty output.err_code,
          true)
      | .error e => (some st, .error request_id e, true)
  | .shutdown request_id => (state, .ok request_id, false)

/-- Session phase abstraction: the spec's `Uninitialized`, `Initialized`,
`Terminated` states. -/
inductive SessionPhase
  | uninitialized
  | initialized
  | terminated
  deriving Repr, DecidableEq

/-- Phase of the gateway after a step, from its session option and its
keep-running flag. -/
def phase (state : Option HarnessState) (running : Bool) : SessionPhase :=
  if running then
    match state with
    | none => .uninitialized
    | some _ => .initialized
  else .terminated

/-! ## Totality helpers -/

theorem parse_window_id_total (v : List Nat) :
    ∃ k, parse_window_id v = some k ∧ k.length = 32 := by
  unfold parse_window_id
  by_cases h : v.length = 64 ∧ ∀ b ∈ v, isHexDigitByte b
  · obtain ⟨k, hk, hklen⟩ := hexDecode_total 32 v (by omega) h.2
    exact ⟨k, by rw [if_pos h, hk], hklen⟩
  · exact ⟨sha256 v, by rw [if_neg h], sha256_length v⟩

theorem convert_input_total (j : EvalInputJson) :
    ∃ i, convert_input j = some i ∧ i.version = j.version ∧
      i.lookback_len = j.lookback_len ∧ i.ohlcv.length = j.ohlcv.length := by
  obtain ⟨k, hk, _⟩ := parse_window_id_total j.window_id
  unfold convert_input
  rw [hk]
  exact ⟨_, rfl, rfl, rfl, by simp⟩

/-! ## Claims -/

/-- C1: the host-side validator replaces a decoded output record with the
canonical hold record carrying error code 6 exactly when the record's
version is not 1, or its action type is buy (1) or sell (2) with a
non-positive order quantity; every other record is returned with all
fields unmodified. -/
theorem C1_host_validation_rule (o : EvalOutputV1) :
    validate_output o =
      if o.version ≠ 1 ∨ ((o.action_type = 1 ∨ o.action_type = 2) ∧ o.order_qty ≤ 0)
      then EvalOutputV1.hold 6
      else o := by
  unfold validate_output
  split_ifs <;> tauto

/-- C2 counterexample: on a passing record with a nonzero reserved byte the
host validator keeps the reserved bytes while the module validator zeroes
them, so the two do not compute the identical record. -/
theorem C2_counterexample :
    validate_output ⟨1, 0, 0, 0, [1, 0, 0, 0, 0, 0, 0, 0]⟩ ≠
      module_validate_output ⟨1, 0, 0, 0, [1, 0, 0, 0, 0, 0, 0, 0]⟩ := by
  decide

/-- C2 (amended): host and module validation agree on the version, action
type, order quantity and error code of every record, and they return the
identical record whenever the input's reserved bytes are already zero; the
module side additionally zeroes the reserved bytes of a passing record. -/
theorem C2_host_module_agree (o : EvalOutputV1) :
    (validate_output o).version = (module_validate_output o).version ∧
    (validate_output o).action_type = (module_validate_output o).action_type ∧
    (validate_output o).order_qty = (module_validate_output o).order_qty ∧
    (validate_output o).err_code = (module_validate_output o).err_code ∧
    (o.reserved = List.replicate 8 0 →
      validate_output o = module_validate_output o) := by
  obtain ⟨v, a, q, e, r⟩ := o
  unfold validate_output module_validate_output
  split_ifs <;> simp_all [EvalOutputV1.hold]

/-- C2 witness: the amended agreement applied at a concrete record with
zero reserved bytes. -/
theorem C2_host_module_agree_witness :
    validate_output (EvalOutputV1.hold 0) =
      module_validate_output (EvalOutputV1.hold 0) :=
  (C2_host_module_agree (EvalOutputV1.hold 0)).2.2.2.2 rfl

/-- C7 counterexample: the record with version 1, action type 3 and order
quantity 5 is returned unchanged by the host validator (its action type
stays 3, so it was not replaced by any canonical hold record, whose action
type is 0), and the module validator also returns it unchanged. -/
theorem C7_counterexample :
    validate_output ⟨1, 3, 5, 0, List.replicate 8 0⟩ =
        ⟨1, 3, 5, 0, List.replicate 8 0⟩ ∧
      (validate_output ⟨1, 3, 5, 0, List.replicate 8 0⟩).action_type ≠ 0 ∧
      module_validate_output ⟨1, 3, 5, 0, List.replicate 8 0⟩ =
        ⟨1, 3, 5, 0, List.replicate 8 0⟩ := by
  decide

/-- C7 (amended): a decoded output record with version 1 whose action type
is outside 0, 1, 2 is not replaced by validation: the host validator
returns it unchanged and the module validator returns it with only the
reserved bytes zeroed — reserved action types pass validation. -/
theorem C7_reserved_action_passes (o : EvalOutputV1) (hv : o.version = 1)
    (ha : 3 ≤ o.action_type) :
    validate_output o = o ∧
      module_validate_output o = { o with reserved := List.replicate 8 0 } := by
  unfold validate_output module_validate_output
  split_ifs with h1 h2 <;> first
    | omega
    | exact absurd h2 (by omega)
    | exact ⟨rfl, rfl⟩

/-- C7 witness: the amended statement applied at the concrete record with
action type 3. -/
theorem C7_reserved_action_passes_witness :
    validate_output ⟨1, 3, 5, 0, List.replicate 8 0⟩ =
        ⟨1, 3, 5, 0, List.replicate 8 0⟩ ∧
      module_validate_output ⟨1, 3, 5, 0, List.replicate 8 0⟩ =
        ⟨1, 3, 5, 0, List.replicate 8 0⟩ :=
  C7_reserved_action_passes ⟨1, 3, 5, 0, List.replicate 8 0⟩ rfl (by norm_num)

/-- C10: both output validators are idempotent — the canonical hold record
a failing input is replaced with itself passes validation unchanged, and a
passing record is a fixed point (on the module side because the reserved
bytes are already zeroed after the first pass). -/
theorem C10_validation_idempotent (o : EvalOutputV1) :
    validate_output (validate_output o) = validate_output o ∧
      module_validate_output (module_validate_output o) =
        module_validate_output o := by
  obtain ⟨v, a, q, e, r⟩ := o
  unfold validate_output module_validate_output
  split_ifs <;> simp_all [EvalOutputV1.hold]

/-- C8: the binary codec round-trips — serializing then deserializing any
well-formed input or output record reproduces every field exactly — and
the serialized output record is exactly 20 bytes: byte 0 version, byte 1
action type, bytes 2-9 the little-endian two's-complement order quantity,
bytes 10-11 the little-endian error code, bytes 12-19 the reserved
bytes. -/
theorem C8_codec_roundtrip (i : EvalInputV1) (o : EvalOutputV1)
    (hi : i.WF) (ho : o.WF) :
    inputFromSlice (encodeInput i) = some i ∧
      outputFromSlice (encodeOutput o) = some o ∧
      (encodeOutput o).length = 20 ∧
      encodeOutput o =
        o.version :: o.action_type ::
          (encodeI64 o.order_qty ++ toLEBytes 2 o.err_code ++ o.reserved) ∧
      (encodeI64 o.order_qty).length = 8 ∧ (toLEBytes 2 o.err_code).length = 2 := by
  have ho1 : o.version < 256 := ho.1
  have ho2 : o.action_type < 256 := ho.2.1
  have ho5 : o.reserved.length = 8 := ho.2.2.2.2.1
  refine ⟨inputFromSlice_encodeInput i hi, outputFromSlice_encodeOutput o ho, ?_, ?_, ?_, ?_⟩
  · simp [encodeOutput, encodeI64, toLEBytes_length, ho5]
  · simp [encodeOutput, toLEBytes, Nat.mod_eq_of_lt ho1, Nat.mod_eq_of_lt ho2,
      List.append_assoc]
  · simp [encodeI64, toLEBytes_length]
  · simp [toLEBytes_length]

/-- C8 witness: the round-trip and the 20-byte layout at a concrete
single-bar input record and a concrete buy output record. -/
theorem C8_codec_roundtrip_witness :
    inputFromSlice (encodeInput
        ⟨1, List.replicate 32 0, 0, 60, 1000000, 1000000, 10000, 0, 0,
          10000, 1000, 500, 1, [⟨100, 101, 99, 100, 10⟩]⟩) =
      some
        ⟨1, List.replicate 32 0, 0, 60, 1000000, 1000000, 10000, 0, 0,
          10000, 1000, 500, 1, [⟨100, 101, 99, 100, 10⟩]⟩ ∧
    outputFromSlice (encodeOutput ⟨1, 1, 7, 0, List.replicate 8 0⟩) =
      some ⟨1, 1, 7, 0, List.replicate 8 0⟩ ∧
    (encodeOutput ⟨1, 1, 7, 0, List.replicate 8 0⟩).length = 20 ∧
    encodeOutput ⟨1, 1, 7, 0, List.replicate 8 0⟩ =
      1 :: 1 :: (encodeI64 7 ++ toLEBytes 2 0 ++ List.replicate 8 0) ∧
    (encodeI64 (7 : Int)).length = 8 ∧ (toLEBytes 2 0).length = 2 :=
  C8_codec_roundtrip
    ⟨1, List.replicate 32 0, 0, 60, 1000000, 1000000, 10000, 0, 0,
      10000, 1000, 500, 1, [⟨100, 101, 99, 100, 10⟩]⟩
    ⟨1, 1, 7, 0, List.replicate 8 0⟩ (by decide) (by decide)

/-- C5: window identifier normalization is total and deterministic — every
byte string yields exactly one 32-byte key; a 64-byte string of ASCII hex
digits is decoded directly by `hex::decode`, and every other string is
keyed by the SHA-256 digest of its bytes. -/
theorem C5_window_id_normalization (v : List Nat) :
    ∃ k, parse_window_id v = some k ∧ k.length = 32 ∧
      ((v.length = 64 ∧ ∀ b ∈ v, isHexDigitByte b) → hexDecode v = some k) ∧
      (¬(v.length = 64 ∧ ∀ b ∈ v, isHexDigitByte b) → k = sha256 v) ∧
      (∀ w, w = v → parse_window_id w = parse_window_id v) := by
  by_cases h : v.length = 64 ∧ ∀ b ∈ v, isHexDigitByte b
  · obtain ⟨k, hk, hklen⟩ := hexDecode_total 32 v (by omega) h.2
    refine ⟨k, ?_, hklen, fun _ => hk, fun hc => absurd h hc, fun w hw => by rw [hw]⟩
    unfold parse_window_id
    rw [if_pos h, hk]
  · refine ⟨sha256 v, ?_, sha256_length v, fun hc => absurd hc h, fun _ => rfl,
      fun w hw => by rw [hw]⟩
    unfold parse_window_id
    rw [if_neg h]

/-- C5 witness: the hex branch on the all-zero 64-digit identifier and the
hash branch on the identifier `"a"` (byte 97). -/
theorem C5_window_id_normalization_witness :
    parse_window_id (List.replicate 64 48) = some (List.replicate 32 0) ∧
      parse_window_id [97] = some (sha256 [97]) := by
  obtain ⟨k, hk, _, hhex, _, _⟩ := C5_window_id_normalization (List.replicate 64 48)
  obtain ⟨k2, hk2, _, _, hsha, _⟩ := C5_window_id_normalization [97]
  constructor
  · have h1 : hexDecode (List.replicate 64 48) = some k := hhex (by decide)
    have h2 : hexDecode (List.replicate 64 48) = some (List.replicate 32 0) := by decide
    rw [hk, h1.symm.trans h2]
  · rw [hk2, hsha (by decide)]

/-- C4: the starter module writes the canonical hold record with the error
code of the first failing check, in order: code 1 for a non-empty
instruction payload, code 4 when the input record fails to decode, code 2
when the decoded version is not 1, code 3 when the lookback length differs
from the bar count, code 5 when the policy fails; only when every check
passes is the policy's validated output written. The harness performs none
of these checks: it always sends an empty payload and its input conversion
succeeds on every JSON input, copying version, lookback length and bar
count unchecked. -/
theorem C4_module_first_failing_check :
    (∀ (input_data payload : List Nat) policy, payload ≠ [] →
        module_record input_data payload policy = EvalOutputV1.hold 1) ∧
    (∀ (input_data : List Nat) policy, inputFromSlice input_data = none →
        module_record input_data [] policy = EvalOutputV1.hold 4) ∧
    (∀ (input_data : List Nat) policy i, inputFromSlice input_data = some i →
        i.version ≠ 1 → module_record input_data [] policy = EvalOutputV1.hold 2) ∧
    (∀ (input_data : List Nat) policy i, inputFromSlice input_data = some i →
        i.version = 1 → i.lookback_len ≠ i.ohlcv.length →
        module_record input_data [] policy = EvalOutputV1.hold 3) ∧
    (∀ (input_data : List Nat) policy i e, inputFromSlice input_data = some i →
        i.version = 1 → i.lookback_len = i.ohlcv.length → policy i = .error e →
        module_record input_data [] policy = EvalOutputV1.hold 5) ∧
    (∀ (input_data : List Nat) policy i v, inputFromSlice input_data = some i →
        i.version = 1 → i.lookback_len = i.ohlcv.length → policy i = .ok v →
        module_record input_data [] policy = module_validate_output v) ∧
    harness_instruction_data = [] ∧
    (∀ j : EvalInputJson, ∃ i, convert_input j = some i ∧ i.version = j.version ∧
        i.lookback_len = j.lookback_len ∧ i.ohlcv.length = j.ohlcv.length) := by
  refine ⟨?_, ?_, ?_, ?_, ?_, ?_, rfl, convert_input_total⟩
  · intro input_data payload policy hp
    unfold module_record
    rw [if_pos hp]
  · intro input_data policy hdec
    unfold module_record
    rw [if_neg (by simp), hdec]
  · intro input_data policy i hdec hv
    unfold module_record
    rw [if_neg (by simp), hdec]
    dsimp only
    rw [if_pos hv]
  · intro input_data policy i hdec hv hl
    unfold module_record
    rw [if_neg (by simp), hdec]
    dsimp only
    rw [if_neg (by simp [hv]), if_pos hl]
  · intro input_data policy i e hdec hv hl hp
    unfold module_record
    rw [if_neg (by simp), hdec]
    dsimp only
    rw [if_neg (by simp [hv]), if_neg (by simp [hl]), hp]
    dsimp only
    decide
  · intro input_data policy i v hdec hv hl hp
    unfold module_record
    rw [if_neg (by simp), hdec]
    dsimp only
    rw [if_neg (by simp [hv]), if_neg (by simp [hl]), hp]

/-- C4 witness: the non-empty-payload arm, the lookback-mismatch arm on a
record announcing two bars while carrying one (the spec's end-to-end
scenario), and the all-checks-pass arm under the starter policy. -/
theorem C4_module_first_failing_check_witness :
    module_record [] [9] policy_evaluate = EvalOutputV1.hold 1 ∧
      module_record
        (encodeInput
          ⟨1, List.replicate 32 0, 0, 60, 1000000, 1000000, 10000, 0, 0,
            10000, 1000, 500, 2, [⟨100, 101, 99, 100, 10⟩]⟩) []
        policy_evaluate = EvalOutputV1.hold 3 ∧
      module_record
        (encodeInput
          ⟨1, List.replicate 32 0, 0, 60, 1000000, 1000000, 10000, 0, 0,
            10000, 1000, 500, 1, [⟨100, 101, 99, 100, 10⟩]⟩) []
        policy_evaluate = module_validate_output (EvalOutputV1.hold 0) :=
  ⟨C4_module_first_failing_check.1 [] [9] policy_evaluate (by simp),
   C4_module_first_failing_check.2.2.2.1 _ policy_evaluate _
     (inputFromSlice_encodeInput
       ⟨1, List.replicate 32 0, 0, 60, 1000000, 1000000, 10000, 0, 0,
         10000, 1000, 500, 2, [⟨100, 101, 99, 100, 10⟩]⟩ (by decide))
     rfl (by decide),
   C4_module_first_failing_check.2.2.2.2.2.1 _ policy_evaluate _
     (EvalOutputV1.hold 0)
     (inputFromSlice_encodeInput
       ⟨1, List.replicate 32 0, 0, 60, 1000000, 1000000, 10000, 0, 0,
         10000, 1000, 500, 1, [⟨100, 101, 99, 100, 10⟩]⟩ (by decide))
     rfl (by decide) rfl⟩

/-- C9: the starter module entrypoint is total — for every account list
(including fewer than two accounts), every instruction payload and every
policy outcome it returns `Ok`, never a program error; and a write into an
output region smaller than the serialized record is silently skipped,
leaving the region unchanged. -/
theorem C9_entrypoint_never_errors :
    (∀ (accounts : List (List Nat)) (instruction_data : List Nat) policy,
        (process_instruction accounts instruction_data policy).1 = ProgResult.ok) ∧
    (∀ (data : List Nat) (out : EvalOutputV1),
        data.length < (encodeOutput out).length → write_output data out = data) := by
  constructor
  · intro accounts instruction_data policy
    match accounts with
    | [] => rfl
    | [_] => rfl
    | _ :: _ :: _ => rfl
  · intro data out h
    unfold write_output
    rw [if_pos h]

/-- C9 witness: the entrypoint returns `Ok` on an empty account list, and
the write into an empty output region is skipped. -/
theorem C9_entrypoint_never_errors_witness :
    (process_instruction [] [] policy_evaluate).1 = ProgResult.ok ∧
      write_output [] (EvalOutputV1.hold 0) = [] :=
  ⟨C9_entrypoint_never_errors.1 [] [] policy_evaluate,
   C9_entrypoint_never_errors.2 [] (EvalOutputV1.hold 0) (by decide)⟩

/-- C6: when the sandbox invocation succeeds but the fetched output region
holds fewer than 20 bytes, the harness returns the canonical hold record
with error code 7 as a successful result — at the gateway this is a
`result` response carrying version 1, action 0, quantity 0, code 7, not an
`error` response — without attempting to decode the bytes. -/
theorem C6_short_output_hold7 (st : HarnessState) (request_id : Nat)
    (agent_id : String) (input : EvalInputJson) (data : List Nat)
    (initOutcome : Except String (Nat × List (String × ProgramInfo)))
    (hfound : (st.programs.lookup agent_id).isSome)
    (hshort : data.length < OUTPUT_LEN) :
    handle_eval st.programs agent_id input (.ok ()) (some data) =
        .ok (EvalOutputV1.hold 7) ∧
      gateway_step (some st) (.eval request_id agent_id input) initOutcome
          (.ok ()) (some data) =
        (some st, .result request_id agent_id "OK" 1 0 0 7, true) := by
  have heval : handle_eval st.programs agent_id input (.ok ()) (some data) =
      .ok (EvalOutputV1.hold 7) := by
    unfold handle_eval
    obtain ⟨p, hp⟩ := Option.isSome_iff_exists.mp hfound
    rw [hp]
    obtain ⟨i, hi, _⟩ := convert_input_total input
    rw [hi]
    dsimp only
    rw [if_pos hshort]
  refine ⟨heval, ?_⟩
  unfold gateway_step
  dsimp only
  rw [heval]
  rfl

/-- C6 witness: a registered agent, the trivial one-bar input and an empty
output region yield the hold-7 result response. -/
theorem C6_short_output_hold7_witness :
    gateway_step (some ⟨0, [("A", ⟨0⟩)], 200000⟩)
        (.eval 2 "A"
          ⟨1, [119], 0, 60, 1000000, 1000000, 10000, 0, 0, 10000, 1000, 500, 1,
            [⟨100, 101, 99, 100, 10⟩]⟩)
        (.ok (0, [])) (.ok ()) (some []) =
      (some ⟨0, [("A", ⟨0⟩)], 200000⟩, .result 2 "A" "OK" 1 0 0 7, true) :=
  (C6_short_output_hold7 ⟨0, [("A", ⟨0⟩)], 200000⟩ 2 "A"
    ⟨1, [119], 0, 60, 1000000, 1000000, 10000, 0, 0, 10000, 1000, 500, 1,
      [⟨100, 101, 99, 100, 10⟩]⟩ [] (.ok (0, [])) (by decide) (by decide)).2

/-- C3: the gateway session follows the specified state machine — a
successful init from Uninitialized installs the session and answers ok; a
failed init answers an error and leaves no session installed; eval while
Uninitialized answers an error and stays Uninitialized; eval while
Initialized keeps the same session Initialized whatever the sandbox does;
shutdown answers ok and terminates the loop. -/
theorem C3_session_state_machine :
    (∀ (request_id : Nat) limit context programs txr outd,
        gateway_step none (.init request_id limit) (.ok (context, programs)) txr outd =
          (some ⟨context, programs, limit.getD 200000⟩, .ok request_id, true)) ∧
    (∀ (request_id : Nat) limit e txr outd,
        gateway_step none (.init request_id limit) (.error e) txr outd =
          (none, .error request_id e, true)) ∧
    (∀ (request_id : Nat) agent_id input io txr outd,
        gateway_step none (.eval request_id agent_id input) io txr outd =
          (none, .error request_id "not initialized", true)) ∧
    (∀ st (request_id : Nat) agent_id input io txr outd,
        (gateway_step (some st) (.eval request_id agent_id input) io txr outd).1 =
            some st ∧
          (gateway_step (some st) (.eval request_id agent_id input) io txr outd).2.2 =
            true) ∧
    (∀ s (request_id : Nat) io txr outd,
        gateway_step s (.shutdown request_id) io txr outd = (s, .ok request_id, false)) ∧
    (∀ st : HarnessState, phase (some st) true = .initialized) ∧
    phase none true = .uninitialized ∧
    (∀ s, phase s false = .terminated) := by
  refine ⟨fun _ _ _ _ _ _ => rfl, fun _ _ _ _ _ => rfl, fun _ _ _ _ _ _ => rfl,
    ?_, fun s _ _ _ _ => by cases s <;> rfl, fun _ => rfl, rfl, fun s => by cases s <;> rfl⟩
  intro st request_id agent_id input io txr outd
  unfold gateway_step
  dsimp only
  cases handle_eval st.programs agent_id input txr outd <;> exact ⟨rfl, rfl⟩

end Solclash
